import Mathlib

/-!
Verification development for the healheart pharmacy-locator frontend.

The search page, chatbot medicine extraction and favorites removal are
embedded as pure Lean functions; external effects (the inventory fetch,
the history write, the favorites delete) are passed in as explicit
`Except`-valued outcomes, and the calls the code issues are returned as an
explicit trace.
-/

namespace HealHeart

/-- A latitude/longitude pair, as stored in `userLocation` (`{lat, lng}`). -/
structure Coordinate where
  lat : Rat
  lng : Rat
deriving DecidableEq, Repr

/-- The toast notifications `handleSearch` can emit, one constructor per
distinct call site in `SearchPage.jsx`. -/
inductive Toast where
  /-- Models `toast.error('Please enter a medicine name')`. -/
  | errorEnterName : Toast
  /-- Models `toast.error('Please enable location access')`. -/
  | errorEnableLocation : Toast
  /-- Models `toast.error('Search failed. Please try again.')`. -/
  | searchFailed : Toast
  /-- Models the neutral `toast('No medicines found nearby', ...)`. -/
  | noMedicinesFound : Toast
  /-- Models `toast.success('Found N results')`. -/
  | foundResults (n : Nat) : Toast
deriving DecidableEq, Repr

/-- The external calls `handleSearch` can issue, with their arguments. -/
inductive ExtCall where
  /-- Records a `searchMedicines(searchQuery, userLocation.lat, userLocation.lng, radius)` call. -/
  | searchMedicines (query : String) (lat lng radius : Rat) : ExtCall
  /-- Records a `logSearch(user.id, searchQuery, userLocation.lat, userLocation.lng, searchResults.length)` call. -/
  | logSearch (userId : String) (query : String) (lat lng : Rat) (resultCount : Nat) : ExtCall
deriving DecidableEq, Repr

/-- Whether an external call is a history write (`logSearch`). -/
def ExtCall.isLogSearch : ExtCall → Bool
  | .logSearch _ _ _ _ _ => true
  | .searchMedicines _ _ _ _ => false

/-- The component state of `SearchPage` touched by `handleSearch`:
`results`, `loading`, `searched`, `selectedResult`.  The element type of
the results list is a parameter; `handleSearch` only stores the fetched
list and reads its length. -/
structure SearchState (α : Type) where
  results : List α
  loading : Bool
  searched : Bool
  selectedResult : Option α
deriving DecidableEq, Repr

/-- Model of the JavaScript `String.prototype.trim`: strip leading and
trailing whitespace (whitespace per `Char.isWhitespace`). -/
def jsTrim (s : String) : String :=
  String.mk (((s.data.dropWhile Char.isWhitespace).reverse.dropWhile
    Char.isWhitespace).reverse)

/-- Embedding of `SearchPage.handleSearch` (SearchPage.jsx, lines 93-142) as a pure
transition.  Inputs: the query text and radius, the current `userLocation`
and `user` (both nullable), the outcome the awaited `searchMedicines` call
would produce, the outcome the awaited `logSearch` call would produce, and
the pre-state.  Output: the post-state, the toasts emitted, and the trace
of external calls issued, in order.

The translation follows the source line by line: empty/whitespace query
(`!searchQuery.trim()`) and missing location return early; otherwise
`loading`/`searched`/`selectedResult` are set, the fetch is awaited inside
`try`; on success `results` is set, then `logSearch` is awaited only
`if (user)`; a throw from either awaited call lands in the `catch` that
emits the `searchFailed` toast; `finally` clears `loading`. -/
def handleSearch {α : Type} (query : String) (radius : Rat)
    (userLocation : Option Coordinate) (user : Option String)
    (fetch : Except Unit (List α)) (logRes : Except Unit Unit)
    (st : SearchState α) : SearchState α × List Toast × List ExtCall :=
  if jsTrim query = "" then
    (st, [Toast.errorEnterName], [])
  else
    match userLocation with
    | none => (st, [Toast.errorEnableLocation], [])
    | some loc =>
      let st1 : SearchState α :=
        { st with loading := true, searched := true, selectedResult := none }
      let fetchCall := ExtCall.searchMedicines query loc.lat loc.lng radius
      match fetch with
      | .error _ => ({ st1 with loading := false }, [Toast.searchFailed], [fetchCall])
      | .ok searchResults =>
        let st2 := { st1 with results := searchResults }
        let doneToast :=
          if searchResults.length = 0 then Toast.noMedicinesFound
          else Toast.foundResults searchResults.length
        match user with
        | none =>
          ({ st2 with loading := false }, [doneToast], [fetchCall])
        | some uid =>
          let logCall :=
            ExtCall.logSearch uid query loc.lat loc.lng searchResults.length
          match logRes with
          | .error _ =>
            ({ st2 with loading := false }, [Toast.searchFailed], [fetchCall, logCall])
          | .ok _ =>
            ({ st2 with loading := false }, [doneToast], [fetchCall, logCall])

/-- The fixed fallback coordinate the page installs when geolocation is
denied: `useLocationStore.getState().setLocation(20.5937, 78.9629)`. -/
def defaultLocation : Coordinate := ⟨20.5937, 78.9629⟩

/-- The mount effect of `SearchPage` (lines 77-84): when `userLocation` is
absent it requests the device location, and on failure installs
`defaultLocation`.  The outcome of `getUserLocation()` is passed in. -/
def locationOnMount (userLocation : Option Coordinate)
    (getLoc : Except Unit Coordinate) : Option Coordinate :=
  match userLocation with
  | some l => some l
  | none =>
    match getLoc with
    | .ok l => some l
    | .error _ => some defaultLocation

/-! ### Chatbot: highlighted-medicine extraction -/

/-- The scanner implemented by `extractMedicineName` in `Chatbot.jsx`
(lines 101-106), i.e. `text.matchAll(/\x2a\x2a([^*]+)\x2a\x2a/g)` taking the
first capture group of each match: starting at each position, a match is two
stars, one or more non-star characters, then two stars; on failure the scan
advances one character, on success it resumes after the match. -/
def extractHighlighted (cs : List Char) : List String :=
  match cs with
  | [] => []
  | '*' :: '*' :: rest =>
    let content := rest.takeWhile (· != '*')
    let after := rest.dropWhile (· != '*')
    if content = [] then
      extractHighlighted ('*' :: rest)
    else if after.take 2 = ['*', '*'] then
      String.mk content :: extractHighlighted (after.drop 2)
    else
      extractHighlighted ('*' :: rest)
  | _ :: rest => extractHighlighted rest
termination_by cs.length
decreasing_by
  all_goals simp only [List.length_cons]
  all_goals try omega
  all_goals
    (have h2 := (List.dropWhile_sublist (l := rest) (· != '*')).length_le
     have h3 := List.length_drop 2 (rest.dropWhile (· != '*'))
     omega)

/-- Embedding of `extractMedicineName(text)` from `Chatbot.jsx`. -/
def extractMedicineName (text : String) : List String :=
  extractHighlighted text.data

/-- The caller-side cap: `msg.medicines.slice(0, 3)` in `Chatbot.jsx`
line 280 displays at most the first three extracted names. -/
def displayedMedicines (text : String) : List String :=
  (extractMedicineName text).take 3

/-! ### FavoritesPage: removeFavorite -/

/-- The joined store row selected by `fetchFavorites` in
`FavoritesPage.jsx`. -/
structure FavoriteStore where
  id : Nat
  store_name : String
  address : String
  city : String
  phone : String
  rating : Option Rat
  image_url : Option String
  is_open : Bool
deriving DecidableEq, Repr

/-- A row of the `favorites` state list: `{ id, created_at, stores }`;
`stores` is nullable (the code guards every access with `fav.stores?.`). -/
structure FavoriteEntry where
  id : String
  created_at : String
  stores : Option FavoriteStore
deriving DecidableEq, Repr

/-- The toasts `removeFavorite` can emit. -/
inductive FavToast where
  /-- Models `toast.success('Removed from favorites')`. -/
  | removed : FavToast
  /-- Models `toast.error('Failed to remove')`. -/
  | failedToRemove : FavToast
deriving DecidableEq, Repr

/-- Embedding of `removeFavorite(favoriteId)` from `FavoritesPage.jsx` (lines 60-75) as a
pure transition on the `favorites` state.  The outcome of the awaited
supabase delete is passed in; on success the state becomes
`favorites.filter((f) => f.id !== favoriteId)`, on a thrown error the catch
block leaves the state untouched. -/
def removeFavorite (deleteRes : Except Unit Unit) (favoriteId : String)
    (favorites : List FavoriteEntry) : List FavoriteEntry × FavToast :=
  match deleteRes with
  | .error _ => (favorites, FavToast.failedToRemove)
  | .ok _ => (favorites.filter (fun f => f.id != favoriteId), FavToast.removed)

/-! ### SearchRanker (modelled from the spec)

The implementation of `searchMedicines` lives in `src/lib/supabase`, which
is not part of the provided sources; the ranking pipeline below is
modelled from the spec, §4.3. -/

/-- Modelled from the spec: `MedicineRecord` (§3); the concrete record
type lives in the absent `src/lib/supabase` layer. -/
structure MedicineRecord where
  id : Nat
  name : String
  generic_name : Option String
  price : Rat
  quantity : Nat
  image_url : Option String
  store_id : Nat
deriving DecidableEq, Repr

/-- Modelled from the spec: `StoreRecord` (§3). -/
structure StoreRecord where
  id : Nat
  store_name : String
  address : String
  latitude : Rat
  longitude : Rat
  phone : String
  is_open : Bool
deriving DecidableEq, Repr

/-- Modelled from the spec: `SearchResult` (§3), the derived per-query
result record. -/
structure SearchResult where
  medicine : MedicineRecord
  store : StoreRecord
  distance_km : Rat
deriving DecidableEq, Repr

/-- The coordinate of a store record. -/
def storeCoord (s : StoreRecord) : Coordinate :=
  ⟨s.latitude, s.longitude⟩

/-- Modelled from the spec: the dedup key `(store_id, medicine_id)`
(§4.3 step 3). -/
def sameKey (a b : SearchResult) : Bool :=
  a.store.id == b.store.id && a.medicine.id == b.medicine.id

/-- Modelled from the spec: on a key conflict keep the lower price, or the
first-seen entry when prices tie (§4.2/§4.3 step 3). -/
def keepLowerPrice (a b : SearchResult) : SearchResult :=
  if b.medicine.price < a.medicine.price then b else a

/-- Modelled from the spec: fold one candidate into the accumulated
deduplicated list — if its `(store_id, medicine_id)` key is already
present, merge into the existing entry keeping the lower price (first-seen
wins a tie), otherwise append it. -/
def insertResult (acc : List SearchResult) (a : SearchResult) : List SearchResult :=
  if acc.any (fun b => sameKey b a) then
    acc.map (fun b => if sameKey b a then keepLowerPrice b a else b)
  else
    acc ++ [a]

/-- Modelled from the spec: deduplication by `(store_id, medicine_id)`,
keeping the lower price on conflict (§4.3 step 3). -/
def dedupe (l : List SearchResult) : List SearchResult :=
  l.foldl insertResult []

/-- Modelled from the spec: the sort comparator of §4.3 step 4 — ascending
`distance_km`, ties by ascending price, then by store name. -/
def resultLE (a b : SearchResult) : Bool :=
  decide (a.distance_km < b.distance_km) ||
    (decide (a.distance_km = b.distance_km) &&
      (decide (a.medicine.price < b.medicine.price) ||
        (decide (a.medicine.price = b.medicine.price) &&
          decide (a.store.store_name ≤ b.store.store_name))))

/-- Modelled from the spec: step 1 of §4.3 — annotate every candidate
with its distance from the origin. -/
def annotate (dist : Coordinate → Coordinate → Rat)
    (candidates : List (MedicineRecord × StoreRecord))
    (origin : Coordinate) : List SearchResult :=
  candidates.map (fun c => ⟨c.1, c.2, dist origin (storeCoord c.2)⟩)

/-- Modelled from the spec: steps 1-4 of §4.3 over the full candidate set —
annotate, keep candidates within `radiusKm` (inclusive boundary),
deduplicate, sort. -/
def rankAll (dist : Coordinate → Coordinate → Rat)
    (candidates : List (MedicineRecord × StoreRecord)) (origin : Coordinate)
    (radiusKm : Rat) : List SearchResult :=
  (dedupe ((annotate dist candidates origin).filter
    (fun r => r.distance_km ≤ radiusKm))).mergeSort resultLE

/-- Modelled from the spec: `SearchRanker.rank` (§4.3).  `GeoMath.distanceKm`
is abstracted as the `dist` parameter (the radius-filter and ordering claims
are independent of the haversine formula itself).  Step 5: the optional
`limit` truncates the fully ranked list. -/
def rank (dist : Coordinate → Coordinate → Rat)
    (candidates : List (MedicineRecord × StoreRecord)) (origin : Coordinate)
    (radiusKm : Rat) (limit : Option Nat) : List SearchResult :=
  match limit with
  | none => rankAll dist candidates origin radiusKm
  | some n => (rankAll dist candidates origin radiusKm).take n

/-- The sort key of §4.3 step 4 as a lexicographic triple
(distance, price, store name). -/
def rankKey (r : SearchResult) : Rat ×ₗ (Rat ×ₗ String) :=
  toLex (r.distance_km, toLex (r.medicine.price, r.store.store_name))

/-- The claimed ordering between adjacent ranked results: strictly closer,
or equally close and strictly cheaper, or equally close, equally priced
and with lexicographically non-decreasing store name. -/
def rankedBefore (a b : SearchResult) : Prop :=
  a.distance_km < b.distance_km
    ∨ (a.distance_km = b.distance_km
        ∧ (a.medicine.price < b.medicine.price
            ∨ (a.medicine.price = b.medicine.price
                ∧ a.store.store_name ≤ b.store.store_name)))

/-! ## Claims about `handleSearch` -/

/-- Claim C3: a search call whose query text is empty or whitespace-only
fails with the invalid-query error (`toast.error('Please enter a medicine
name')`), no backend call is made, and the existing results state is left
unchanged. -/
theorem handleSearch_invalidQuery {α : Type} (query : String) (radius : Rat)
    (userLocation : Option Coordinate) (user : Option String)
    (fetch : Except Unit (List α)) (logRes : Except Unit Unit)
    (st : SearchState α) (h : jsTrim query = "") :
    handleSearch query radius userLocation user fetch logRes st
      = (st, [Toast.errorEnterName], []) := by
  unfold handleSearch
  rw [if_pos h]

/-- Witness for C3 at a whitespace-only query. -/
theorem handleSearch_invalidQuery_witness :
    (jsTrim "   " = "")
      ∧ handleSearch "   " 10 (some ⟨0, 0⟩) (some "u") (Except.ok [()])
          (Except.ok ()) ⟨[()], false, false, none⟩
        = (⟨[()], false, false, none⟩, [Toast.errorEnterName], []) :=
  ⟨rfl, handleSearch_invalidQuery "   " 10 (some ⟨0, 0⟩) (some "u")
    (Except.ok [()]) (Except.ok ()) ⟨[()], false, false, none⟩ rfl⟩

/-- Claim C6: with a non-empty query but no origin coordinate, the search
fails with the missing-location error without issuing any backend call and
without touching the state; the fixed default coordinate on denied
geolocation is supplied only by the page's mount effect (the UI
collaborator), never by `handleSearch` itself. -/
theorem handleSearch_missingLocation {α : Type} (query : String) (radius : Rat)
    (user : Option String) (fetch : Except Unit (List α))
    (logRes : Except Unit Unit) (st : SearchState α) (h : jsTrim query ≠ "") :
    handleSearch query radius none user fetch logRes st
        = (st, [Toast.errorEnableLocation], [])
      ∧ locationOnMount none (Except.error ()) = some defaultLocation := by
  constructor
  · unfold handleSearch
    rw [if_neg h]
  · rfl

/-- Witness for C6. -/
theorem handleSearch_missingLocation_witness :
    (jsTrim "insulin" ≠ "")
      ∧ handleSearch "insulin" 10 none (some "u") (Except.ok [()])
          (Except.ok ()) ⟨[], false, false, none⟩
        = (⟨[], false, false, none⟩, [Toast.errorEnableLocation], [])
      ∧ locationOnMount none (Except.error ()) = some defaultLocation :=
  ⟨by decide,
    handleSearch_missingLocation "insulin" 10 (some "u") (Except.ok [()])
      (Except.ok ()) ⟨[], false, false, none⟩ (by decide)⟩

/-- Claim C4: when the backend candidate fetch throws, the search fails
with the backend-unavailable error (`toast.error('Search failed. Please
try again.')`), the trace shows exactly one fetch call (no automatic
retry), and no `logSearch` call is ever issued for that search. -/
theorem handleSearch_backendUnavailable {α : Type} (query : String)
    (radius : Rat) (loc : Coordinate) (user : Option String)
    (logRes : Except Unit Unit) (st : SearchState α) (h : jsTrim query ≠ "") :
    handleSearch query radius (some loc) user (Except.error ()) logRes st
      = ({ st with loading := false, searched := true, selectedResult := none },
         [Toast.searchFailed],
         [ExtCall.searchMedicines query loc.lat loc.lng radius]) := by
  unfold handleSearch
  rw [if_neg h]

/-- Witness for C4. -/
theorem handleSearch_backendUnavailable_witness :
    (jsTrim "insulin" ≠ "")
      ∧ handleSearch "insulin" 10 (some ⟨0, 0⟩) (some "u")
          (Except.error ()) (Except.ok ()) (⟨[()], false, false, none⟩ : SearchState Unit)
        = (⟨[()], false, true, none⟩, [Toast.searchFailed],
           [ExtCall.searchMedicines "insulin" 0 0 10]) :=
  ⟨by decide,
    handleSearch_backendUnavailable "insulin" 10 ⟨0, 0⟩ (some "u")
      (Except.ok ()) ⟨[()], false, false, none⟩ (by decide)⟩

/-- Counterexample to claim C1 as stated: with a logged-in user, a
successful fetch of one result and a failing history write, the emitted
toast is the `searchFailed` error — the history failure IS surfaced to the
caller through the search-error path, and the success toast
(`foundResults 1`) is never shown. -/
theorem historyFailureSurfaced_cex :
    (handleSearch "paracetamol" 10 (some ⟨0, 0⟩) (some "user-1")
        (Except.ok [()]) (Except.error ()) ⟨[], false, false, none⟩).2.1
        = [Toast.searchFailed]
      ∧ Toast.searchFailed ≠ Toast.foundResults 1 := by
  exact ⟨rfl, by intro h; cases h⟩

/-- Claim C1 (amended): if the history write fails after a successful
fetch, the fetched results are still stored in the results state (the
state update precedes the logging call), but the failure is surfaced to
the caller through the same `searchFailed` error toast used for backend
failures, and the success/no-results notification is suppressed. -/
theorem handleSearch_historyWriteFails {α : Type} (query : String)
    (radius : Rat) (loc : Coordinate) (uid : String) (results : List α)
    (st : SearchState α) (h : jsTrim query ≠ "") :
    handleSearch query radius (some loc) (some uid) (Except.ok results)
        (Except.error ()) st
      = ({ st with results := results, loading := false, searched := true, selectedResult := none },
         [Toast.searchFailed],
         [ExtCall.searchMedicines query loc.lat loc.lng radius,
          ExtCall.logSearch uid query loc.lat loc.lng results.length]) := by
  unfold handleSearch
  rw [if_neg h]

/-- Witness for the amended C1. -/
theorem handleSearch_historyWriteFails_witness :
    (jsTrim "paracetamol" ≠ "")
      ∧ handleSearch "paracetamol" 10 (some ⟨0, 0⟩) (some "user-1")
          (Except.ok [()]) (Except.error ()) (⟨[], false, false, none⟩ : SearchState Unit)
        = (⟨[()], false, true, none⟩, [Toast.searchFailed],
           [ExtCall.searchMedicines "paracetamol" 0 0 10,
            ExtCall.logSearch "user-1" "paracetamol" 0 0 1]) :=
  ⟨by decide,
    handleSearch_historyWriteFails "paracetamol" 10 ⟨0, 0⟩ "user-1" [()]
      ⟨[], false, false, none⟩ (by decide)⟩

/-- Counterexample to claim C2 as stated: a search that completes
successfully (one result, success toast) while no user identity is present
issues NO history call at all — the `logSearch` invocation does not happen
when the user identity is absent, because the code guards it with
`if (user)`. -/
theorem logSearchSkippedWithoutUser_cex :
    handleSearch "paracetamol" 10 (some ⟨0, 0⟩) none (Except.ok [()])
        (Except.ok ()) ⟨[], false, false, none⟩
      = (⟨[()], false, true, none⟩, [Toast.foundResults 1],
         [ExtCall.searchMedicines "paracetamol" 0 0 10]) := by
  rfl

/-- Claim C2 (amended): for every search whose candidate fetch completes
successfully — including one with zero results — the code invokes
`logSearch` exactly once with the user id, the query text, the origin
coordinates and the result count when a user identity is present, and
issues no history call at all when no user is logged in. -/
theorem handleSearch_logSearchInvocation {α : Type} (query : String)
    (radius : Rat) (loc : Coordinate) (user : Option String)
    (results : List α) (logRes : Except Unit Unit) (st : SearchState α)
    (h : jsTrim query ≠ "") :
    ((handleSearch query radius (some loc) user (Except.ok results)
        logRes st).2.2.filter ExtCall.isLogSearch)
      = (match user with
         | some uid =>
             [ExtCall.logSearch uid query loc.lat loc.lng results.length]
         | none => []) := by
  unfold handleSearch
  rw [if_neg h]
  cases user with
  | none => simp [ExtCall.isLogSearch]
  | some uid => cases logRes <;> simp [ExtCall.isLogSearch]

/-- Witness for the amended C2, both with and without a user identity. -/
theorem handleSearch_logSearchInvocation_witness :
    (jsTrim "aspirin" ≠ "")
      ∧ ((handleSearch "aspirin" 5 (some ⟨1, 2⟩) (some "u7") (Except.ok [(), ()])
            (Except.ok ()) (⟨[], false, false, none⟩ : SearchState Unit)).2.2.filter
          ExtCall.isLogSearch)
        = [ExtCall.logSearch "u7" "aspirin" 1 2 2]
      ∧ ((handleSearch "aspirin" 5 (some ⟨1, 2⟩) none (Except.ok [(), ()])
            (Except.ok ()) (⟨[], false, false, none⟩ : SearchState Unit)).2.2.filter
          ExtCall.isLogSearch)
        = [] :=
  ⟨by decide,
    handleSearch_logSearchInvocation "aspirin" 5 ⟨1, 2⟩ (some "u7") [(), ()]
      (Except.ok ()) ⟨[], false, false, none⟩ (by decide),
    handleSearch_logSearchInvocation "aspirin" 5 ⟨1, 2⟩ none [(), ()]
      (Except.ok ()) ⟨[], false, false, none⟩ (by decide)⟩

/-- Claim C5: a failed search is reported with an explicit error
(`searchFailed`) distinct from the outcome of a successful search with
zero results (`noMedicinesFound`), so the caller/UI can tell "search is
broken" from "nothing nearby". -/
theorem handleSearch_failureDistinctFromZeroResults {α : Type}
    (query : String) (radius : Rat) (loc : Coordinate) (user : Option String)
    (logRes : Except Unit Unit) (st st' : SearchState α)
    (h : jsTrim query ≠ "") :
    (handleSearch query radius (some loc) user (Except.error ()) logRes
        st).2.1 = [Toast.searchFailed]
      ∧ (handleSearch query radius (some loc) user (Except.ok ([] : List α))
          (Except.ok ()) st').2.1 = [Toast.noMedicinesFound]
      ∧ Toast.searchFailed ≠ Toast.noMedicinesFound := by
  refine ⟨?_, ?_, by intro h'; cases h'⟩
  · unfold handleSearch
    rw [if_neg h]
  · unfold handleSearch
    rw [if_neg h]
    cases user <;> rfl

/-- Witness for C5. -/
theorem handleSearch_failureDistinctFromZeroResults_witness :
    (jsTrim "insulin" ≠ "")
      ∧ (handleSearch "insulin" 10 (some ⟨0, 0⟩) (some "u") (Except.error ())
          (Except.ok ()) (⟨[], false, false, none⟩ : SearchState Unit)).2.1
        = [Toast.searchFailed]
      ∧ (handleSearch "insulin" 10 (some ⟨0, 0⟩) (some "u")
          (Except.ok ([] : List Unit)) (Except.ok ())
          ⟨[], false, false, none⟩).2.1 = [Toast.noMedicinesFound]
      ∧ Toast.searchFailed ≠ Toast.noMedicinesFound :=
  ⟨by decide,
    handleSearch_failureDistinctFromZeroResults "insulin" 10 ⟨0, 0⟩ (some "u")
      (Except.ok ()) ⟨[], false, false, none⟩ ⟨[], false, false, none⟩
      (by decide)⟩

/-! ## Claim about `extractMedicineName` -/

/-- Scanning past a non-star character leaves the extraction unchanged. -/
theorem extractHighlighted_skip (c : Char) (s : List Char) (hc : c ≠ '*') :
    extractHighlighted (c :: s) = extractHighlighted s := by
  rw [extractHighlighted.eq_def]
  split
  · rename_i heq; cases heq
  · rename_i rest heq
    cases heq
    exact absurd rfl hc
  · rename_i heq
    cases heq
    rfl

/-- A complete highlight block at the front is captured and the scan
resumes after its closing markers. -/
theorem extractHighlighted_block (a s : List Char) (h1 : a ≠ [])
    (h2 : ∀ c ∈ a, c ≠ '*') :
    extractHighlighted ('*' :: '*' :: (a ++ '*' :: '*' :: s))
      = String.mk a :: extractHighlighted s := by
  have hp : ∀ c ∈ a, (c != '*') = true := by
    intro c hc; simpa using h2 c hc
  rw [extractHighlighted.eq_def]
  simp only [List.takeWhile_append_of_pos hp, List.dropWhile_append_of_pos hp,
    List.takeWhile_cons, List.dropWhile_cons]
  simp [h1]

/-- Text without any star yields no extracted names. -/
theorem extractHighlighted_starFree (cs : List Char)
    (h : ∀ c ∈ cs, c ≠ '*') : extractHighlighted cs = [] := by
  induction cs with
  | nil => rw [extractHighlighted.eq_def]
  | cons c rest ih =>
    rw [extractHighlighted_skip c rest (h c (by simp))]
    exact ih (fun c' hc' => h c' (by simp [hc']))

/-- Claim C9: the extraction is a pure function returning the substrings
enclosed in double-star markers in order of appearance, duplicates
preserved: a leading complete block contributes its content followed by
the extraction of the remaining text, a leading non-star character
contributes nothing, star-free text yields nothing, and the caller caps
the displayed list at the first 3 entries. -/
theorem extractMedicineName_spec :
    (∀ a s, a ≠ [] → (∀ c ∈ a, c ≠ '*') →
        extractHighlighted ('*' :: '*' :: (a ++ '*' :: '*' :: s))
          = String.mk a :: extractHighlighted s)
      ∧ (∀ c s, c ≠ '*' →
          extractHighlighted (c :: s) = extractHighlighted s)
      ∧ (∀ cs, (∀ c ∈ cs, c ≠ '*') → extractHighlighted cs = [])
      ∧ (∀ text, displayedMedicines text = (extractMedicineName text).take 3
          ∧ (displayedMedicines text).length ≤ 3) :=
  ⟨extractHighlighted_block, extractHighlighted_skip,
    extractHighlighted_starFree,
    fun text => ⟨rfl, List.length_take_le 3 (extractMedicineName text)⟩⟩

/-- Witness for C9: one concrete block capture (showing duplicates are
preserved — the same name appears again in the remaining text's own
extraction) and the hypotheses discharged at that input. -/
theorem extractMedicineName_spec_witness :
    ("Aspirin".data ≠ [] ∧ ∀ c ∈ "Aspirin".data, c ≠ '*')
      ∧ extractHighlighted
          ('*' :: '*' :: ("Aspirin".data ++ '*' :: '*' :: " and **Aspirin**".data))
        = String.mk "Aspirin".data
            :: extractHighlighted " and **Aspirin**".data :=
  ⟨⟨by decide, by decide⟩,
    extractMedicineName_spec.1 "Aspirin".data " and **Aspirin**".data
      (by decide) (by decide)⟩

/-! ## Claim about `removeFavorite` -/

/-- Claim C10: on a successful deletion the new favorites list is a
sublist of the old one (kept entries unchanged, relative order preserved),
no kept entry has the removed id, every entry with a different id is kept,
and every dropped entry had exactly the removed id; on a failed deletion
the list is entirely unchanged. -/
theorem removeFavorite_frame (favoriteId : String)
    (favorites : List FavoriteEntry) :
    ((removeFavorite (Except.ok ()) favoriteId favorites).1.Sublist favorites
      ∧ (∀ f ∈ (removeFavorite (Except.ok ()) favoriteId favorites).1,
          f.id ≠ favoriteId)
      ∧ (∀ f ∈ favorites, f.id ≠ favoriteId →
          f ∈ (removeFavorite (Except.ok ()) favoriteId favorites).1)
      ∧ (∀ f ∈ favorites,
          f ∉ (removeFavorite (Except.ok ()) favoriteId favorites).1 →
          f.id = favoriteId))
      ∧ (removeFavorite (Except.error ()) favoriteId favorites).1
          = favorites := by
  refine ⟨⟨?_, ?_, ?_, ?_⟩, rfl⟩
  · exact List.filter_sublist favorites
  · intro f hf
    have := (List.mem_filter.mp hf).2
    simpa using this
  · intro f hf hne
    exact List.mem_filter.mpr ⟨hf, by simpa using hne⟩
  · intro f hf hnot
    by_contra hne
    exact hnot (List.mem_filter.mpr ⟨hf, by simpa using hne⟩)

/-- Witness for C10 on a concrete two-entry list. -/
theorem removeFavorite_frame_witness :
    ((removeFavorite (Except.ok ()) "f1"
        [⟨"f1", "t1", none⟩, ⟨"f2", "t2", none⟩]).1.Sublist
        [⟨"f1", "t1", none⟩, ⟨"f2", "t2", none⟩]
      ∧ (⟨"f2", "t2", none⟩ : FavoriteEntry)
          ∈ (removeFavorite (Except.ok ()) "f1"
              [⟨"f1", "t1", none⟩, ⟨"f2", "t2", none⟩]).1)
      ∧ (removeFavorite (Except.error ()) "f1"
          [⟨"f1", "t1", none⟩, ⟨"f2", "t2", none⟩]).1
        = [⟨"f1", "t1", none⟩, ⟨"f2", "t2", none⟩] := by
  have h := removeFavorite_frame "f1" [⟨"f1", "t1", none⟩, ⟨"f2", "t2", none⟩]
  exact ⟨⟨h.1.1, h.1.2.2.1 ⟨"f2", "t2", none⟩ (by simp) (by decide)⟩, h.2⟩

/-! ## Claims about the ranker (modelled from the spec) -/

theorem sameKey_refl (a : SearchResult) : sameKey a a = true := by
  simp [sameKey]

theorem sameKey_symm {a b : SearchResult} (h : sameKey a b = true) :
    sameKey b a = true := by
  simp only [sameKey, Bool.and_eq_true, beq_iff_eq] at h ⊢
  exact ⟨h.1.symm, h.2.symm⟩

theorem sameKey_trans {a b c : SearchResult} (h1 : sameKey a b = true)
    (h2 : sameKey b c = true) : sameKey a c = true := by
  simp only [sameKey, Bool.and_eq_true, beq_iff_eq] at h1 h2 ⊢
  exact ⟨h1.1.trans h2.1, h1.2.trans h2.2⟩

/-- The merge of two entries is one of the two entries. -/
theorem keepLowerPrice_eq_or (a b : SearchResult) :
    keepLowerPrice a b = a ∨ keepLowerPrice a b = b := by
  unfold keepLowerPrice
  split
  · exact Or.inr rfl
  · exact Or.inl rfl

/-- Every entry of `insertResult acc a` comes from `acc` or is `a`. -/
theorem mem_insertResult {x a : SearchResult} {acc : List SearchResult}
    (h : x ∈ insertResult acc a) : x ∈ acc ∨ x = a := by
  unfold insertResult at h
  split at h
  · obtain ⟨b, hb, hbx⟩ := List.mem_map.mp h
    by_cases hk : sameKey b a = true
    · rw [if_pos hk] at hbx
      rcases keepLowerPrice_eq_or b a with h' | h'
      · exact Or.inl (by rw [← hbx, h']; exact hb)
      · exact Or.inr (by rw [← hbx, h'])
    · rw [if_neg hk] at hbx
      exact Or.inl (by rw [← hbx]; exact hb)
  · rcases List.mem_append.mp h with h' | h'
    · exact Or.inl h'
    · exact Or.inr (by simpa using h')

/-- Inserting never loses a key already present in the accumulator. -/
theorem insertResult_preserves_key {b : SearchResult}
    {acc : List SearchResult} (a : SearchResult) (hb : b ∈ acc) :
    ∃ x ∈ insertResult acc a, sameKey x b = true := by
  unfold insertResult
  split
  · refine ⟨if sameKey b a then keepLowerPrice b a else b,
      List.mem_map_of_mem _ hb, ?_⟩
    by_cases hk : sameKey b a = true
    · rw [if_pos hk]
      rcases keepLowerPrice_eq_or b a with h' | h'
      · rw [h']; exact sameKey_refl b
      · rw [h']; exact sameKey_symm hk
    · rw [if_neg hk]; exact sameKey_refl b
  · exact ⟨b, by simp [hb], sameKey_refl b⟩

/-- After inserting `a`, some entry carries the key of `a`. -/
theorem insertResult_new_key (acc : List SearchResult) (a : SearchResult) :
    ∃ x ∈ insertResult acc a, sameKey x a = true := by
  unfold insertResult
  split
  · rename_i h
    obtain ⟨b, hb, hk⟩ := List.any_eq_true.mp h
    refine ⟨if sameKey b a then keepLowerPrice b a else b,
      List.mem_map_of_mem _ hb, ?_⟩
    rw [if_pos hk]
    rcases keepLowerPrice_eq_or b a with h' | h'
    · rw [h']; exact hk
    · rw [h']; exact sameKey_refl a
  · exact ⟨a, by simp, sameKey_refl a⟩

theorem mem_foldl_insertResult {x : SearchResult} :
    ∀ (l acc : List SearchResult), x ∈ l.foldl insertResult acc →
      x ∈ acc ∨ x ∈ l
  | [], _, h => Or.inl h
  | a :: l, acc, h => by
    rcases mem_foldl_insertResult l (insertResult acc a) h with h' | h'
    · rcases mem_insertResult h' with h'' | h''
      · exact Or.inl h''
      · exact Or.inr (by simp [h''])
    · exact Or.inr (List.mem_cons_of_mem a h')

theorem foldl_insertResult_covers {b : SearchResult} :
    ∀ (l acc : List SearchResult),
      ((∃ x ∈ acc, sameKey x b = true) ∨ b ∈ l) →
      ∃ x ∈ l.foldl insertResult acc, sameKey x b = true
  | [], _, h => by
    rcases h with h | h
    · exact h
    · cases h
  | a :: l, acc, h => by
    apply foldl_insertResult_covers l (insertResult acc a)
    rcases h with ⟨x, hx, hk⟩ | hbl
    · obtain ⟨y, hy, hyk⟩ := insertResult_preserves_key a hx
      exact Or.inl ⟨y, hy, sameKey_trans hyk hk⟩
    · rcases List.mem_cons.mp hbl with rfl | h'
      · exact Or.inl (insertResult_new_key acc b)
      · exact Or.inr h'

/-- Deduplication only keeps entries of its input. -/
theorem mem_dedupe {x : SearchResult} {l : List SearchResult}
    (h : x ∈ dedupe l) : x ∈ l := by
  rcases mem_foldl_insertResult l [] h with h' | h'
  · cases h'
  · exact h'

/-- Every key of the input survives deduplication. -/
theorem dedupe_covers {b : SearchResult} {l : List SearchResult}
    (hb : b ∈ l) : ∃ x ∈ dedupe l, sameKey x b = true :=
  foldl_insertResult_covers l [] (Or.inr hb)

/-- The Bool comparator agrees with the lexicographic key order. -/
theorem resultLE_iff (a b : SearchResult) :
    resultLE a b = true ↔ rankKey a ≤ rankKey b := by
  simp [resultLE, rankKey, Prod.Lex.le_iff]

theorem resultLE_trans : ∀ (a b c : SearchResult),
    resultLE a b → resultLE b c → resultLE a c := by
  intro a b c h1 h2
  rw [resultLE_iff] at h1 h2 ⊢
  exact le_trans h1 h2

theorem resultLE_total : ∀ (a b : SearchResult),
    resultLE a b || resultLE b a := by
  intro a b
  rcases le_total (rankKey a) (rankKey b) with h | h
  · simp [resultLE_iff, h]
  · simp [resultLE_iff, h]

/-- The Bool comparator agrees with the claimed adjacent ordering. -/
theorem resultLE_iff_rankedBefore (a b : SearchResult) :
    resultLE a b = true ↔ rankedBefore a b := by
  simp [resultLE, rankedBefore]

/-- Claim C7: every ranked result sequence is sorted: adjacent-wise (hence
pairwise) non-decreasing in `distance_km`, with ties broken by ascending
price and then by lexicographically non-decreasing store name. -/
theorem rank_sorted (dist : Coordinate → Coordinate → Rat)
    (candidates : List (MedicineRecord × StoreRecord)) (origin : Coordinate)
    (radiusKm : Rat) (limit : Option Nat) :
    (rank dist candidates origin radiusKm limit).Pairwise rankedBefore := by
  have hs : (rankAll dist candidates origin radiusKm).Pairwise rankedBefore := by
    have h := List.sorted_mergeSort resultLE_trans resultLE_total
      (dedupe ((annotate dist candidates origin).filter
        (fun r => r.distance_km ≤ radiusKm)))
    exact h.imp (fun hab => (resultLE_iff_rankedBefore _ _).mp hab)
  cases limit with
  | none => exact hs
  | some n => exact hs.sublist (List.take_sublist n _)

/-- Claim C8: (a) every ranked result's recorded distance is the distance
of its own store from the origin and is at most `radiusKm` (inclusive
boundary); (b) a candidate at distance exactly `radiusKm` is included —
some ranked result carries its `(store_id, medicine_id)` key; (c) a
candidate strictly beyond `radiusKm` is excluded. -/
theorem rank_radius (dist : Coordinate → Coordinate → Rat)
    (candidates : List (MedicineRecord × StoreRecord)) (origin : Coordinate)
    (radiusKm : Rat) (limit : Option Nat) :
    (∀ r ∈ rank dist candidates origin radiusKm limit,
        r.distance_km = dist origin (storeCoord r.store)
          ∧ r.distance_km ≤ radiusKm)
      ∧ (∀ c ∈ candidates, dist origin (storeCoord c.2) = radiusKm →
          ∃ r ∈ rank dist candidates origin radiusKm none,
            r.store.id = c.2.id ∧ r.medicine.id = c.1.id)
      ∧ (∀ c ∈ candidates, radiusKm < dist origin (storeCoord c.2) →
          (⟨c.1, c.2, dist origin (storeCoord c.2)⟩ : SearchResult)
            ∉ rank dist candidates origin radiusKm limit) := by
  have hmem : ∀ r ∈ rank dist candidates origin radiusKm limit,
      r.distance_km = dist origin (storeCoord r.store)
        ∧ r.distance_km ≤ radiusKm := by
    intro r hr
    have hr' : r ∈ rankAll dist candidates origin radiusKm := by
      cases limit with
      | none => exact hr
      | some n => exact List.mem_of_mem_take hr
    have hd : r ∈ dedupe ((annotate dist candidates origin).filter
        (fun r => r.distance_km ≤ radiusKm)) := List.mem_mergeSort.mp hr'
    have hf := mem_dedupe hd
    obtain ⟨hann, hle⟩ := List.mem_filter.mp hf
    obtain ⟨c, _, rfl⟩ := List.mem_map.mp hann
    exact ⟨rfl, by simpa using hle⟩
  refine ⟨hmem, ?_, ?_⟩
  · intro c hc hdist
    have hann : (⟨c.1, c.2, dist origin (storeCoord c.2)⟩ : SearchResult)
        ∈ annotate dist candidates origin := by
      exact List.mem_map.mpr ⟨c, hc, rfl⟩
    have hfil : (⟨c.1, c.2, dist origin (storeCoord c.2)⟩ : SearchResult)
        ∈ (annotate dist candidates origin).filter
          (fun r => r.distance_km ≤ radiusKm) := by
      refine List.mem_filter.mpr ⟨hann, ?_⟩
      simp [hdist]
    obtain ⟨x, hx, hk⟩ := dedupe_covers hfil
    refine ⟨x, List.mem_mergeSort.mpr hx, ?_⟩
    simp only [sameKey, Bool.and_eq_true, beq_iff_eq] at hk
    exact ⟨hk.1, hk.2⟩
  · intro c hc hgt hin
    have h := (hmem _ hin).2
    simp only at h
    exact absurd h (not_le.mpr hgt)

/-- Witness for C8 with a concrete distance function and one candidate at
exactly the radius boundary. -/
theorem rank_radius_witness :
    ((⟨1, "Paracetamol", none, 20, 5, none, 7⟩, ⟨7, "Store A", "addr", 10, 0, "ph", true⟩)
        ∈ ([((⟨1, "Paracetamol", none, 20, 5, none, 7⟩ : MedicineRecord),
            (⟨7, "Store A", "addr", 10, 0, "ph", true⟩ : StoreRecord))])
      ∧ (fun (p q : Coordinate) => |q.lat - p.lat| + |q.lng - p.lng|)
          (⟨0, 0⟩ : Coordinate)
          (storeCoord ⟨7, "Store A", "addr", 10, 0, "ph", true⟩) = 10)
      ∧ ∃ r ∈ rank (fun p q => |q.lat - p.lat| + |q.lng - p.lng|)
            [(⟨1, "Paracetamol", none, 20, 5, none, 7⟩,
              ⟨7, "Store A", "addr", 10, 0, "ph", true⟩)] ⟨0, 0⟩ 10 none,
          r.store.id = 7 ∧ r.medicine.id = 1 := by
  refine ⟨⟨by simp, by norm_num [storeCoord]⟩, ?_⟩
  have h := (rank_radius (fun p q => |q.lat - p.lat| + |q.lng - p.lng|)
    [(⟨1, "Paracetamol", none, 20, 5, none, 7⟩,
      ⟨7, "Store A", "addr", 10, 0, "ph", true⟩)] ⟨0, 0⟩ 10 none).2.1
  exact h (⟨1, "Paracetamol", none, 20, 5, none, 7⟩,
    ⟨7, "Store A", "addr", 10, 0, "ph", true⟩) (by simp)
    (by norm_num [storeCoord])

end HealHeart
